import Mathlib

/-!
Shallow embedding of `scrap.py`, a single-file news scraper for
hindustantimes.com.  The external collaborators (HTTP fetch, the
BeautifulSoup parser, `urllib.parse.urljoin`) are modelled as an
environment of pure functions; a parsed document is abstracted to the
results of the fixed selectors the code queries.  The pagination loop
`scrape_articles` is given explicit fuel because the Python `while`
loop has no termination guarantee for adversarial environments.
-/

/-- Article record with the six string fields built by `extract_article`
(the Python dict keys `Title`, `Author`, `Published Time`, `URL`,
`Categories`, `Full Text`). -/
structure Article where
  Title : String
  Author : String
  PublishedTime : String
  URL : String
  Categories : String
  FullText : String
deriving DecidableEq, Repr

/-- Anchor element as seen by the collection loop: the href attribute
lookup yields `none` when the attribute is absent. -/
structure Link where
  href : Option String
deriving DecidableEq, Repr

/-- Parsed HTML document, abstracted to the results of the selectors
`scrap.py` uses: the first `h1` heading, the author selector, the
`span.dateTime` selector, `div.storyDetails` (its paragraph texts, or
`none` when the container is absent), `ul.breadcrumb li a` texts, and
the candidate anchors under `div[class*="cartHolder"]`.  Node results
carry their raw text; `.strip()` is applied where the Python does. -/
structure Doc where
  h1 : Option String
  authorNode : Option String
  dateTime : Option String
  storyDetails : Option (List String)
  breadcrumbAnchors : List String
  cartLinks : List Link

/-- External collaborators: `requests.get` (returning document text or a
failure), the HTML parser, and `urljoin`. -/
structure Env where
  fetch : String → Option String
  parse : String → Doc
  urljoin : String → String → String

def BASE_URL : String := "https://www.hindustantimes.com"

/-- fetch_html: returns the page text, or `none` on any fetch error. -/
def fetch_html (env : Env) (url : String) : Option String :=
  env.fetch url

/-- containsSub hay needle: the Python substring test `needle in hay`. -/
def containsSub (hay needle : String) : Bool :=
  decide (needle.toList <:+: hay.toList)

/-- extract_article: fetches `url` and builds the six-field record; the
Python `if not html` guard treats both a failed fetch and empty text as
failure; every selector miss becomes the sentinel `"N/A"`. -/
def extract_article (env : Env) (url : String) : Option Article :=
  match fetch_html env url with
  | none => none
  | some html =>
    if html.isEmpty then none
    else
      let soup := env.parse html
      some {
        Title := match soup.h1 with | some t => t.trim | none => "N/A"
        Author := match soup.authorNode with | some t => t.trim | none => "N/A"
        PublishedTime := match soup.dateTime with | some t => t.trim | none => "N/A"
        URL := url
        Categories :=
          if soup.breadcrumbAnchors.isEmpty then "N/A"
          else String.intercalate ", " (soup.breadcrumbAnchors.tail.map String.trim)
        FullText :=
          match soup.storyDetails with
          | some ps => String.intercalate "\n\n" (ps.map String.trim)
          | none => "N/A"
      }

/-- processLinks: the inner `for link in links` loop of
`scrape_articles`: stop once the target is reached, skip falsy hrefs and
photo/video paths, resolve the href, skip URLs already accumulated,
extract and append on success, skip on extraction failure. -/
def processLinks (env : Env) (max_articles : Nat) (articles : List Article) :
    List Link → List Article
  | [] => articles
  | link :: rest =>
    if articles.length ≥ max_articles then articles
    else
      match link.href with
      | none => processLinks env max_articles articles rest
      | some href =>
        if href.isEmpty || containsSub href "/photos/" || containsSub href "/videos/" then
          processLinks env max_articles articles rest
        else
          let full_url := env.urljoin BASE_URL href
          if articles.any (fun a => a.URL == full_url) then
            processLinks env max_articles articles rest
          else
            match extract_article env full_url with
            | some article => processLinks env max_articles (articles ++ [article]) rest
            | none => processLinks env max_articles articles rest

/-- processLinksT: `processLinks` instrumented with the list of absolute
URLs that are handed to `extract_article` (i.e. actually fetched), in
order.  Its first component coincides with `processLinks`
(`processLinksT_fst`). -/
def processLinksT (env : Env) (max_articles : Nat) (articles : List Article) :
    List Link → List Article × List String
  | [] => (articles, [])
  | link :: rest =>
    if articles.length ≥ max_articles then (articles, [])
    else
      match link.href with
      | none => processLinksT env max_articles articles rest
      | some href =>
        if href.isEmpty || containsSub href "/photos/" || containsSub href "/videos/" then
          processLinksT env max_articles articles rest
        else
          let full_url := env.urljoin BASE_URL href
          if articles.any (fun a => a.URL == full_url) then
            processLinksT env max_articles articles rest
          else
            match extract_article env full_url with
            | some article =>
              let r := processLinksT env max_articles (articles ++ [article]) rest
              (r.1, full_url :: r.2)
            | none =>
              let r := processLinksT env max_articles articles rest
              (r.1, full_url :: r.2)

/-- listingURL: the URL `scrape_articles` builds for the page cursor
(page 1 uses the bare category path, later pages the `page-N` path). -/
def listingURL (category : String) (page : Nat) : String :=
  if page = 1 then BASE_URL ++ "/" ++ category ++ "/"
  else BASE_URL ++ "/" ++ category ++ "/page-" ++ toString page

/-- scrapeLoop: the `while len(articles) < max_articles` loop of
`scrape_articles`: build the listing URL, stop on fetch failure or empty
text, stop when no candidate links are found, otherwise run the inner
loop and advance the page cursor.  `fuel` bounds the number of outer
iterations. -/
def scrapeLoop (env : Env) (category : String) (max_articles : Nat) :
    Nat → List Article → Nat → List Article
  | 0, articles, _ => articles
  | fuel + 1, articles, page =>
    if articles.length < max_articles then
      match fetch_html env (listingURL category page) with
      | none => articles
      | some html =>
        if html.isEmpty then articles
        else
          let links := (env.parse html).cartLinks
          if links.isEmpty then articles
          else
            scrapeLoop env category max_articles fuel
              (processLinks env max_articles articles links) (page + 1)
    else articles

/-- scrape_articles: the collection loop, started with an empty result
sequence and page cursor 1; returns the accumulated records (which the
Python then hands to the chosen output writer). -/
def scrape_articles (env : Env) (category : String) (max_articles : Nat)
    (fuel : Nat) : List Article :=
  scrapeLoop env category max_articles fuel [] 1

/-- items: the Python dict iteration order of the record fields, with
the original textual keys. -/
def Article.items (a : Article) : List (String × String) :=
  [("Title", a.Title), ("Author", a.Author), ("Published Time", a.PublishedTime),
   ("URL", a.URL), ("Categories", a.Categories), ("Full Text", a.FullText)]

/-- repeatChar c n: the Python string repetition `c * n`. -/
def repeatChar (c : Char) (n : Nat) : String :=
  String.mk (List.replicate n c)

/-- saveTxtGo: the body of the `save_to_txt` loop over
`enumerate(articles, start=1)`, producing the text written to the
file, write by write. -/
def saveTxtGo (idx : Nat) : List Article → String
  | [] => ""
  | a :: rest =>
    "ARTICLE #" ++ toString idx ++ "\n"
      ++ (repeatChar '=' 40 ++ "\n")
      ++ String.join (a.items.map (fun kv => kv.1 ++ ":\n" ++ kv.2 ++ "\n\n"))
      ++ (repeatChar '-' 80 ++ "\n\n")
      ++ saveTxtGo (idx + 1) rest

/-- save_to_txt_content: the full file content `save_to_txt` writes. -/
def save_to_txt_content (articles : List Article) : String :=
  saveTxtGo 1 articles

/-- specTxtBlock follows the wording of the spec for one record of the
plain-text writer: a literal `ARTICLE #<n>` header line (1-based), a
40-character `=` rule, then for each field a `<FieldName>:` line
followed by the field value and a blank line, and finally an
80-character `-` rule plus a blank line. -/
def specTxtBlock (i : Nat) (a : Article) : String :=
  "ARTICLE #" ++ toString i ++ "\n"
    ++ (repeatChar '=' 40 ++ "\n")
    ++ String.join (a.items.map (fun kv => kv.1 ++ ":\n" ++ kv.2 ++ "\n\n"))
    ++ (repeatChar '-' 80 ++ "\n\n")

/-- specTxtBlocks i l: the record blocks of the spec plain-text
layout, indexed i, i+1, ... in list order. -/
def specTxtBlocks (i : Nat) : List Article → String
  | [] => ""
  | a :: rest => specTxtBlock i a ++ specTxtBlocks (i + 1) rest

/-- naRecord u: the record extracted from an article page on which every
selector misses. -/
def naRecord (u : String) : Article :=
  { Title := "N/A", Author := "N/A", PublishedTime := "N/A",
    URL := u, Categories := "N/A", FullText := "N/A" }

/-- docEmpty: a document on which every selector of scrap.py misses. -/
def docEmpty : Doc :=
  { h1 := none, authorNode := none, dateTime := none,
    storyDetails := none, breadcrumbAnchors := [], cartLinks := [] }

/-- mkLinks hs: anchor elements carrying the given hrefs. -/
def mkLinks (hs : List String) : List Link :=
  hs.map (fun h => { href := some h })

/-- listingDoc hs: a listing document whose card anchors carry hrefs hs. -/
def listingDoc (hs : List String) : Doc :=
  { docEmpty with cartLinks := mkLinks hs }

def page1Hrefs : List String := ["u01", "u02", "u03", "u04", "u05"]
def page2Hrefs : List String := ["u06", "u07", "u08", "u09", "u10"]
def page3Hrefs : List String := ["u11", "u12", "u13", "u14", "u15"]

/-- env5: three listing pages for category `c` with five fresh candidate
hrefs each (no photo/video paths, no duplicates); every article page
fetches successfully and extracts with all selectors missing. -/
def env5 : Env where
  fetch := fun url =>
    if url = listingURL "c" 1 then some "L1"
    else if url = listingURL "c" 2 then some "L2"
    else if url = listingURL "c" 3 then some "L3"
    else if (page1Hrefs ++ page2Hrefs ++ page3Hrefs).contains url then some ("A" ++ url)
    else none
  parse := fun html =>
    if html = "L1" then listingDoc page1Hrefs
    else if html = "L2" then listingDoc page2Hrefs
    else if html = "L3" then listingDoc page3Hrefs
    else docEmpty
  urljoin := fun _ href => href

/-- env5fail3: env5 with the page-3 listing fetch failing; a run that
never fetches page 3 cannot distinguish it from env5. -/
def env5fail3 : Env :=
  { env5 with fetch := fun url => if url = listingURL "c" 3 then none else env5.fetch url }

/-- env5fail2: env5 with the page-2 listing fetch failing. -/
def env5fail2 : Env :=
  { env5 with fetch := fun url => if url = listingURL "c" 2 then none else env5.fetch url }

/-- expected10: the ten records a run over env5 with target 10 accumulates. -/
def expected10 : List Article :=
  (page1Hrefs ++ page2Hrefs).map naRecord

/-- envFail: every fetch fails, so every article extraction fails. -/
def envFail : Env where
  fetch := fun _ => none
  parse := fun _ => docEmpty
  urljoin := fun _ href => href

/-- envNA: every fetch succeeds with a page on which every selector
misses. -/
def envNA : Env where
  fetch := fun _ => some "H"
  parse := fun _ => docEmpty
  urljoin := fun _ href => href

/-- envBread: every fetch succeeds with a page whose breadcrumb list has
exactly one anchor. -/
def envBread : Env where
  fetch := fun _ => some "H"
  parse := fun _ => { docEmpty with breadcrumbAnchors := ["Home"] }
  urljoin := fun _ href => href

theorem processLinks_length_le (env : Env) (N : Nat) :
    ∀ links articles, articles.length ≤ N →
      (processLinks env N articles links).length ≤ N := by
  intro links
  induction links with
  | nil => intro articles h; simpa [processLinks] using h
  | cons link rest ih =>
    intro articles h
    rw [processLinks]
    split
    next => exact h
    next hge =>
      split
      next => exact ih articles h
      next href =>
        split
        next => exact ih articles h
        next hskip =>
          dsimp only
          split
          next => exact ih articles h
          next hdup =>
            split
            next article heq =>
              refine ih _ ?_
              simp only [List.length_append, List.length_cons, List.length_nil]
              omega
            next => exact ih articles h

theorem scrapeLoop_length_le (env : Env) (cat : String) (N : Nat) :
    ∀ fuel articles page, articles.length ≤ N →
      (scrapeLoop env cat N fuel articles page).length ≤ N := by
  intro fuel
  induction fuel with
  | zero => intro a p h; simpa [scrapeLoop] using h
  | succ fuel ih =>
    intro a p h
    rw [scrapeLoop]
    split
    next =>
      split
      next => exact h
      next html heq =>
        split
        next => exact h
        next =>
          dsimp only
          split
          next => exact h
          next => exact ih _ _ (processLinks_length_le env N _ _ h)
    next => exact h

theorem extract_article_url (env : Env) (url : String) (a : Article)
    (h : extract_article env url = some a) : a.URL = url := by
  rw [extract_article, fetch_html] at h
  cases hf : env.fetch url with
  | none => rw [hf] at h; cases h
  | some html =>
    rw [hf] at h
    dsimp only at h
    by_cases he : html.isEmpty = true
    · rw [if_pos he] at h; cases h
    · rw [if_neg he] at h
      injection h with h
      subst h
      rfl

theorem processLinks_nodup (env : Env) (N : Nat) :
    ∀ links articles, (articles.map Article.URL).Nodup →
      ((processLinks env N articles links).map Article.URL).Nodup := by
  intro links
  induction links with
  | nil => intro articles h; simpa [processLinks] using h
  | cons link rest ih =>
    intro articles h
    rw [processLinks]
    split
    next => exact h
    next hge =>
      split
      next => exact ih articles h
      next s hs =>
        split
        next => exact ih articles h
        next hskip =>
          dsimp only
          split
          next => exact ih articles h
          next hdup =>
            split
            next article heq =>
              refine ih _ ?_
              have hurl : article.URL = env.urljoin BASE_URL s :=
                extract_article_url _ _ _ heq
              have hnotin : article.URL ∉ articles.map Article.URL := by
                intro hmem
                rcases List.mem_map.mp hmem with ⟨b, hb, hbu⟩
                have hany : (articles.any fun a => a.URL == env.urljoin BASE_URL s) = true :=
                  List.any_eq_true.mpr ⟨b, hb, by simp [hbu, hurl]⟩
                simp [hany] at hdup
              simp [List.nodup_append, h, hnotin]
            next => exact ih articles h

theorem scrapeLoop_nodup (env : Env) (cat : String) (N : Nat) :
    ∀ fuel articles page, (articles.map Article.URL).Nodup →
      ((scrapeLoop env cat N fuel articles page).map Article.URL).Nodup := by
  intro fuel
  induction fuel with
  | zero => intro a p h; simpa [scrapeLoop] using h
  | succ fuel ih =>
    intro a p h
    rw [scrapeLoop]
    split
    next =>
      split
      next => exact h
      next html heq =>
        split
        next => exact h
        next =>
          dsimp only
          split
          next => exact h
          next => exact ih _ _ (processLinks_nodup env N _ _ h)
    next => exact h

theorem processLinksT_fst (env : Env) (N : Nat) :
    ∀ links articles,
      (processLinksT env N articles links).1 = processLinks env N articles links := by
  intro links
  induction links with
  | nil => intro articles; rfl
  | cons link rest ih =>
    intro articles
    rw [processLinks, processLinksT]
    by_cases hge : articles.length ≥ N
    · simp [hge]
    · simp only [if_neg hge]
      cases hh : link.href with
      | none => exact ih articles
      | some href =>
        by_cases hskip : (href.isEmpty || containsSub href "/photos/" || containsSub href "/videos/") = true
        · simp [hskip, ih]
        · rw [Bool.not_eq_true] at hskip
          dsimp only
          by_cases hdup : (articles.any fun a => a.URL == env.urljoin BASE_URL href) = true
          · simp [hskip, hdup, ih]
          · rw [Bool.not_eq_true] at hdup
            cases hex : extract_article env (env.urljoin BASE_URL href) with
            | some article => simp [hskip, hdup, hex, ih]
            | none => simp [hskip, hdup, hex, ih]

/-- C1: for every environment, category and target count N ≥ 1, the
collection loop keeps the accumulated sequence at length at most N at
every point (through the inner candidate loop and every outer
iteration), and `scrape_articles` returns a sequence of length between
0 and N inclusive. -/
theorem scrape_articles_length_bounded (env : Env) (cat : String) (N : Nat)
    (hN : 1 ≤ N) :
    (∀ articles links, articles.length ≤ N →
        (processLinks env N articles links).length ≤ N) ∧
    (∀ fuel articles page, articles.length ≤ N →
        (scrapeLoop env cat N fuel articles page).length ≤ N) ∧
    (∀ fuel, (scrape_articles env cat N fuel).length ≤ N) :=
  ⟨fun articles links h => processLinks_length_le env N links articles h,
   fun fuel articles page h => scrapeLoop_length_le env cat N fuel articles page h,
   fun fuel => scrapeLoop_length_le env cat N fuel [] 1 (by simp)⟩

/-- C1 witness: the bound instantiated at env5 with target 10, fuel 5. -/
theorem scrape_articles_length_bounded_witness :
    (scrape_articles env5 "c" 10 5).length ≤ 10 :=
  (scrape_articles_length_bounded env5 "c" 10 (by decide)).2.2 5

/-- C2: the accumulated URLs are pairwise distinct: a candidate whose
resolved absolute URL string-equals the URL of an accumulated record is
skipped without being handed to extract_article, a candidate whose
resolved URL differs from all accumulated URLs is handed to
extract_article, the inner loop preserves distinctness of the URL
column, and every sequence `scrape_articles` produces has pairwise
distinct URLs. -/
theorem scrape_articles_urls_distinct (env : Env) (cat : String) (N : Nat) :
    (∀ articles link rest href, link.href = some href → href.isEmpty = false →
        containsSub href "/photos/" = false → containsSub href "/videos/" = false →
        articles.length < N →
        (articles.any fun a => a.URL == env.urljoin BASE_URL href) = true →
        processLinksT env N articles (link :: rest) =
          processLinksT env N articles rest) ∧
    (∀ articles link rest href, link.href = some href → href.isEmpty = false →
        containsSub href "/photos/" = false → containsSub href "/videos/" = false →
        articles.length < N →
        (articles.any fun a => a.URL == env.urljoin BASE_URL href) = false →
        ((processLinksT env N articles (link :: rest)).2).head? =
          some (env.urljoin BASE_URL href)) ∧
    (∀ articles links, (articles.map Article.URL).Nodup →
        ((processLinks env N articles links).map Article.URL).Nodup) ∧
    (∀ fuel, ((scrape_articles env cat N fuel).map Article.URL).Nodup) := by
  refine ⟨?_, ?_, fun a l h => processLinks_nodup env N l a h,
    fun fuel => scrapeLoop_nodup env cat N fuel [] 1 (by simp)⟩
  · intro articles link rest href hh hne hp hv hlen hdup
    rw [processLinksT, if_neg (Nat.not_le.mpr hlen), hh]
    simp [hne, hp, hv, hdup]
  · intro articles link rest href hh hne hp hv hlen hdup
    rw [processLinksT, if_neg (Nat.not_le.mpr hlen), hh]
    simp only [hne, hp, hv, Bool.or_self, Bool.or_false, Bool.false_or]
    split
    next h => simp at h
    next =>
      split
      next h => simp [h] at hdup
      next =>
        split
        next => rfl
        next => rfl

/-- C2 witness: a candidate whose resolved URL equals the accumulated
URL of the accumulated record is skipped without an extraction call. -/
theorem scrape_articles_urls_distinct_witness :
    processLinksT env5 10 [naRecord "u01"] [{ href := some "u01" }] =
      processLinksT env5 10 [naRecord "u01"] [] :=
  (scrape_articles_urls_distinct env5 "c" 10).1 [naRecord "u01"] _ [] "u01"
    rfl (by decide) (by decide) (by decide) (by decide) (by decide)

/-- C3: when the listing-page fetch fails at the current page cursor,
the pagination loop stops immediately and returns exactly the records
accumulated so far; no failure escapes (the loop is a total function
into article sequences). -/
theorem listing_fetch_failure_returns_partial (env : Env) (cat : String)
    (N fuel : Nat) (articles : List Article) (page : Nat)
    (h : env.fetch (listingURL cat page) = none) :
    scrapeLoop env cat N (fuel + 1) articles page = articles := by
  rw [scrapeLoop]
  split
  next => simp [fetch_html, h]
  next => rfl

/-- C3 witness: with env5fail2 the page-2 listing fetch fails, and the
loop resumed at page cursor 2 returns the five page-1 records
unchanged. -/
theorem listing_fetch_failure_returns_partial_witness :
    scrapeLoop env5fail2 "c" 10 3 (page1Hrefs.map naRecord) 2 = page1Hrefs.map naRecord :=
  listing_fetch_failure_returns_partial env5fail2 "c" 10 2 (page1Hrefs.map naRecord) 2
    (by decide)

/-- C4: when the fetch delivers nonempty text, extract_article returns a
record (all six fields are total String fields of the Article type,
never absent), its URL field is the fetched url, and each selector that
matches nothing yields the literal sentinel "N/A" for its field. -/
theorem extract_article_sentinel_fields (env : Env) (url html : String)
    (hf : env.fetch url = some html) (hne : html.isEmpty = false) :
    (extract_article env url).isSome = true ∧
    ∀ a, extract_article env url = some a →
      a.URL = url ∧
      ((env.parse html).h1 = none → a.Title = "N/A") ∧
      ((env.parse html).authorNode = none → a.Author = "N/A") ∧
      ((env.parse html).dateTime = none → a.PublishedTime = "N/A") ∧
      ((env.parse html).breadcrumbAnchors = [] → a.Categories = "N/A") ∧
      ((env.parse html).storyDetails = none → a.FullText = "N/A") := by
  constructor
  · simp [extract_article, fetch_html, hf, hne]
  · intro a ha
    rw [extract_article, fetch_html, hf] at ha
    dsimp only at ha
    rw [if_neg (by simp [hne])] at ha
    injection ha with ha
    subst ha
    refine ⟨rfl, ?_, ?_, ?_, ?_, ?_⟩
    · intro h; simp [h]
    · intro h; simp [h]
    · intro h; simp [h]
    · intro h; simp [h]
    · intro h; simp [h]

/-- C4 witness: over envNA (all selectors miss) the extraction succeeds
and the Title field of the extracted record is the sentinel. -/
theorem extract_article_sentinel_fields_witness :
    (extract_article envNA "u").isSome = true ∧ (naRecord "u").Title = "N/A" :=
  ⟨(extract_article_sentinel_fields envNA "u" "H" rfl rfl).1,
   (((extract_article_sentinel_fields envNA "u" "H" rfl rfl).2 (naRecord "u")
      (by decide)).2.1) rfl⟩

/-- C5: over env5 (three listing pages of five fresh candidates each)
with target 10 the loop returns exactly ten records with ten distinct
URLs; the page-3 content is never consulted (failing its fetch changes
nothing, since 5+5 = 10 is reached at page 2); page 1 is addressed by
the bare category path and every page k+2 by the paginated path. -/
theorem scenario_three_pages_target_ten :
    scrape_articles env5 "c" 10 5 = expected10 ∧
    (scrape_articles env5 "c" 10 5).length = 10 ∧
    ((scrape_articles env5 "c" 10 5).map Article.URL).Nodup ∧
    scrape_articles env5fail3 "c" 10 5 = scrape_articles env5 "c" 10 5 ∧
    (∀ cat : String, listingURL cat 1 = BASE_URL ++ "/" ++ cat ++ "/") ∧
    (∀ (cat : String) (k : Nat),
        listingURL cat (k + 2) = BASE_URL ++ "/" ++ cat ++ "/page-" ++ toString (k + 2)) := by
  refine ⟨by decide, by decide, by decide, by decide,
    fun cat => by simp [listingURL], fun cat k => ?_⟩
  rw [listingURL, if_neg (by omega)]

/-- C6: a candidate whose article extraction fails (the article fetch
returns failure) is skipped: nothing is appended and the inner loop
continues with the remaining candidates in order; the loop itself is
not aborted. -/
theorem extraction_failure_skips_candidate (env : Env) (N : Nat)
    (articles : List Article) (link : Link) (rest : List Link) (href : String)
    (hh : link.href = some href) (hne : href.isEmpty = false)
    (hp : containsSub href "/photos/" = false)
    (hv : containsSub href "/videos/" = false)
    (hlen : articles.length < N)
    (hdup : (articles.any fun a => a.URL == env.urljoin BASE_URL href) = false)
    (hex : extract_article env (env.urljoin BASE_URL href) = none) :
    processLinks env N articles (link :: rest) = processLinks env N articles rest := by
  rw [processLinks, if_neg (Nat.not_le.mpr hlen), hh]
  simp [hne, hp, hv, hdup, hex]

/-- C6 witness: over envFail (every fetch fails) a candidate is skipped
and processing continues as if it were absent. -/
theorem extraction_failure_skips_candidate_witness :
    processLinks envFail 5 [] [{ href := some "v1" }] = processLinks envFail 5 [] [] :=
  extraction_failure_skips_candidate envFail 5 [] _ [] "v1" rfl (by decide) (by decide)
    (by decide) (by decide) (by decide) (by decide)

/-- C7: a candidate link with an absent href, or whose href contains
"/photos/" or "/videos/", is skipped: it is excluded from the result,
never handed to extract_article, and does not count toward the target. -/
theorem non_article_link_skipped (env : Env) (N : Nat)
    (articles : List Article) (link : Link) (rest : List Link)
    (hlen : articles.length < N)
    (hskip : link.href = none ∨
      ∃ href, link.href = some href ∧
        (containsSub href "/photos/" = true ∨ containsSub href "/videos/" = true)) :
    processLinks env N articles (link :: rest) = processLinks env N articles rest ∧
    processLinksT env N articles (link :: rest) = processLinksT env N articles rest := by
  rcases hskip with hnone | ⟨href, hh, hpv⟩
  · constructor
    · rw [processLinks, if_neg (Nat.not_le.mpr hlen), hnone]
    · rw [processLinksT, if_neg (Nat.not_le.mpr hlen), hnone]
  · have hcond : (href.isEmpty || containsSub href "/photos/" || containsSub href "/videos/") = true := by
      rcases hpv with hp | hv
      · simp [hp]
      · simp [hv]
    constructor
    · rw [processLinks, if_neg (Nat.not_le.mpr hlen), hh]
      simp [hcond]
    · rw [processLinksT, if_neg (Nat.not_le.mpr hlen), hh]
      simp [hcond]

/-- C7 witness: a photo-gallery link is skipped by the inner loop. -/
theorem non_article_link_skipped_witness :
    processLinks env5 10 [] [{ href := some "/photos/x" }] = processLinks env5 10 [] [] ∧
    processLinksT env5 10 [] [{ href := some "/photos/x" }] = processLinksT env5 10 [] [] :=
  non_article_link_skipped env5 10 [] _ [] (by decide)
    (Or.inr ⟨"/photos/x", rfl, Or.inl (by decide)⟩)

theorem saveTxtGo_eq_specTxtBlocks : ∀ (l : List Article) (i : Nat),
    saveTxtGo i l = specTxtBlocks i l := by
  intro l
  induction l with
  | nil => intro i; rfl
  | cons a rest ih =>
    intro i
    rw [saveTxtGo, specTxtBlocks, specTxtBlock, ih]

/-- C8: the plain-text writer emits, for the i-th record (1-based, in
list order), a literal `ARTICLE #i` header line, a 40-character `=`
rule, then for each of the six fields a `<FieldName>:` line followed by
the field value and a blank line, and finally an 80-character `-` rule
plus a blank line; for two records it emits exactly the block numbered
1 and then the block numbered 2. -/
theorem save_to_txt_layout :
    (∀ l : List Article, save_to_txt_content l = specTxtBlocks 1 l) ∧
    (∀ a b : Article, save_to_txt_content [a, b] = specTxtBlock 1 a ++ specTxtBlock 2 b) := by
  constructor
  · intro l; exact saveTxtGo_eq_specTxtBlocks l 1
  · intro a b
    rw [save_to_txt_content, saveTxtGo_eq_specTxtBlocks [a, b] 1,
      specTxtBlocks, specTxtBlocks, specTxtBlocks, String.append_empty]

/-- C9: with a successful nonempty fetch, a breadcrumb list with
exactly one anchor yields the empty string for Categories (the join of
the empty tail), the sentinel "N/A" arises exactly from the empty
breadcrumb match, and any nonempty breadcrumb match yields the
comma-space join of the stripped texts after the first anchor. -/
theorem categories_singleton_breadcrumb (env : Env) (url html : String)
    (hf : env.fetch url = some html) (hne : html.isEmpty = false) :
    ∀ a, extract_article env url = some a →
      (∀ t, (env.parse html).breadcrumbAnchors = [t] → a.Categories = "") ∧
      ((env.parse html).breadcrumbAnchors = [] → a.Categories = "N/A") ∧
      (∀ t ts, (env.parse html).breadcrumbAnchors = t :: ts →
          a.Categories = String.intercalate ", " (ts.map String.trim)) := by
  intro a ha
  rw [extract_article, fetch_html, hf] at ha
  dsimp only at ha
  rw [if_neg (by simp [hne])] at ha
  injection ha with ha
  subst ha
  refine ⟨?_, ?_, ?_⟩
  · intro t h
    simp only [h]
    rfl
  · intro h; simp [h]
  · intro t ts h; simp [h]

/-- C9 witness: over envBread (breadcrumb list with the single anchor
"Home") the Categories field of the extracted record is the empty string. -/
theorem categories_singleton_breadcrumb_witness :
    (Article.mk "N/A" "N/A" "N/A" "u" "" "N/A").Categories = "" :=
  ((categories_singleton_breadcrumb envBread "u" "H" rfl rfl)
      (Article.mk "N/A" "N/A" "N/A" "u" "" "N/A") (by decide)).1 "Home" rfl

/-- C10: a failed extraction leaves the accumulated sequence unchanged
and does not mark the URL as seen: two candidates resolving to the same
URL, with extraction failing there, are both handed to extract_article
(the instrumented trace lists the URL twice) and nothing is appended;
dedup consults only the accumulated records, and the instrumented inner
loop always agrees with the plain one on the accumulated sequence. -/
theorem failed_extraction_url_not_seen (env : Env) (N : Nat)
    (articles : List Article) (l1 l2 : Link) (href : String)
    (h1 : l1.href = some href) (h2 : l2.href = some href)
    (hne : href.isEmpty = false)
    (hp : containsSub href "/photos/" = false)
    (hv : containsSub href "/videos/" = false)
    (hlen : articles.length < N)
    (hdup : (articles.any fun a => a.URL == env.urljoin BASE_URL href) = false)
    (hex : extract_article env (env.urljoin BASE_URL href) = none) :
    processLinksT env N articles [l1, l2] =
      (articles, [env.urljoin BASE_URL href, env.urljoin BASE_URL href]) ∧
    processLinks env N articles [l1, l2] = articles ∧
    (∀ links as, (processLinksT env N as links).1 = processLinks env N as links) := by
  have hstep2 : processLinksT env N articles [l2] = (articles, [env.urljoin BASE_URL href]) := by
    rw [processLinksT, if_neg (Nat.not_le.mpr hlen), h2]
    simp [hne, hp, hv, hdup, hex, processLinksT]
  have hstep1 : processLinksT env N articles [l1, l2] =
      (articles, [env.urljoin BASE_URL href, env.urljoin BASE_URL href]) := by
    rw [processLinksT, if_neg (Nat.not_le.mpr hlen), h1]
    simp [hne, hp, hv, hdup, hex, hstep2]
  refine ⟨hstep1, ?_, fun links as => processLinksT_fst env N links as⟩
  rw [← processLinksT_fst env N [l1, l2] articles, hstep1]

/-- C10 witness: over envFail two identical candidates are both handed
to extraction (which fails both times) and the result stays empty. -/
theorem failed_extraction_url_not_seen_witness :
    processLinksT envFail 5 [] [{ href := some "v1" }, { href := some "v1" }] =
      ([], ["v1", "v1"]) :=
  (failed_extraction_url_not_seen envFail 5 [] _ _ "v1" rfl rfl (by decide) (by decide)
      (by decide) (by decide) (by decide) (by decide)).1
